import Mathlib

/-!
Shallow embedding of `run_xnat2bids.py` from the oscar-scripts repository:
the parameter schema, the argument compiler (`extract_params`,
`parse_x2b_params`, `compile_xnat2bids_list`), the configuration merger and
validator (`merge_config_files`, `verify_parameters`), the remote session
resolver (`fetch_requested_sessions`), the job-submission credential
redaction of `launch_x2b_jobs`, and the diff/sync engine
(`diff_data_directory`'s per-session logic and `get_datetime`).

Python strings are modelled as Lean `String`s (internally `List Char`),
Python/TOML values as the inductive `Value`, Python dictionaries as
insertion-ordered association lists, Python exceptions as `Except PyErr`,
and the bare `exit()` calls of the validator as `PyErr.exit 0` (CPython's
`exit()` raises `SystemExit(None)`, which terminates the process with
status 0).  Filesystem and HTTP effects are oracles passed as functions.
-/

namespace Oscar

/-- Error outcomes of the Python code: raised exceptions and `exit()` calls. -/
inductive PyErr where
  | valueError
  | typeError
  | keyError (k : String)
  | invalidParam (k : String)
  | exit (code : Nat)
  | remote
  deriving DecidableEq, Repr

instance {ε α : Type} [DecidableEq ε] [DecidableEq α] : DecidableEq (Except ε α) :=
  fun a b =>
    match a, b with
    | .ok x, .ok y =>
      if h : x = y then .isTrue (by rw [h]) else .isFalse (by simp [h])
    | .error x, .error y =>
      if h : x = y then .isTrue (by rw [h]) else .isFalse (by simp [h])
    | .ok _, .error _ => .isFalse (by simp)
    | .error _, .ok _ => .isFalse (by simp)

/-- A Python scalar value as found in the TOML configuration. -/
inductive Scalar where
  | str (s : String)
  | int (n : Int)
  | bool (b : Bool)
  deriving DecidableEq, Repr

/-- A TOML/Python value: a scalar or a (flat) array of scalars.  The
configurations of this script only ever hold flat arrays. -/
inductive Value where
  | scalar (s : Scalar)
  | list (xs : List Scalar)
  deriving DecidableEq, Repr

/-- Shorthand for a string value. -/
def Value.s (x : String) : Value := .scalar (.str x)

/-- An insertion-ordered Python dictionary mapping parameter names to values. -/
abbrev Dict := List (String × Value)

/-- A top-level configuration: section name ↦ section dictionary. -/
abbrev Config := List (String × Dict)

/-- Python `d[k]` lookup (keys are unique in all dictionaries we build). -/
def dictGet (d : Dict) (k : String) : Option Value :=
  (d.find? (fun kv => kv.1 == k)).map (fun kv => kv.2)

/-- Python `k in d`. -/
def dictHas (d : Dict) (k : String) : Bool :=
  (dictGet d k).isSome

/-- Top-level section lookup. -/
def cfgGet (c : Config) (k : String) : Option Dict :=
  (c.find? (fun kv => kv.1 == k)).map (fun kv => kv.2)

/-- Setting one key in a Python dict: an existing key keeps its position,
a new key is appended at the end (CPython insertion-order semantics). -/
def dictSet (d : Dict) (k : String) (v : Value) : Dict :=
  if d.any (fun kv => kv.1 == k) then
    d.map (fun kv => if kv.1 == k then (k, v) else kv)
  else
    d ++ [(k, v)]

/-- Python `d.update(u)`. -/
def dictUpdate (d u : Dict) : Dict :=
  u.foldl (fun acc kv => dictSet acc kv.1 kv.2) d

/-- Python `sep.join(parts)`. -/
def joinStr (sep : String) : List String → String
  | [] => ""
  | [x] => x
  | x :: xs => x ++ sep ++ joinStr sep xs

/-- Python `' '.join(parts)`. -/
def joinSpace (parts : List String) : String :=
  joinStr " " parts

/-- Python `str.split(sep)` for a one-character separator. -/
def splitChar (sep : Char) : List Char → List (List Char)
  | [] => [[]]
  | c :: rest =>
    match splitChar sep rest with
    | [] => [[c]]
    | t :: ts => if c = sep then [] :: t :: ts else (c :: t) :: ts

/-- Python `str.replace(" ", "")`. -/
def removeSpaces (s : List Char) : List Char :=
  s.filter (fun c => ¬ (c = ' '))

/-- The character for a decimal digit `d < 10`. -/
def digitChar (d : Nat) : Char :=
  if d = 0 then '0' else if d = 1 then '1' else if d = 2 then '2'
  else if d = 3 then '3' else if d = 4 then '4' else if d = 5 then '5'
  else if d = 6 then '6' else if d = 7 then '7' else if d = 8 then '8' else '9'

/-- Decimal digits of `n`, most significant first; `fuel` bounds recursion
depth (any `fuel > n` is enough, see `natCharsFuel_stable`). -/
def natCharsFuel : Nat → Nat → List Char
  | 0, _ => []
  | fuel + 1, n =>
    if n < 10 then [digitChar n]
    else natCharsFuel fuel (n / 10) ++ [digitChar (n % 10)]

/-- Python `str(n)` for a natural number. -/
def natChars (n : Nat) : List Char :=
  natCharsFuel (n + 1) n

/-- Python `str(n)` for a natural number, as a `String`. -/
def natRepr (n : Nat) : String :=
  String.mk (natChars n)

/-- Python `str(n)` for an integer. -/
def intRepr (n : Int) : String :=
  if n < 0 then "-" ++ natRepr n.natAbs else natRepr n.toNat

/-- Accumulating decimal parse of a digit string. -/
def parseDigitsAux : Nat → List Char → Option Nat
  | acc, [] => some acc
  | acc, c :: rest =>
    if c.isDigit then parseDigitsAux (acc * 10 + (c.toNat - 48)) rest else none

/-- Parse a nonempty all-digit string as a natural number. -/
def parseDigits (s : List Char) : Option Nat :=
  match s with
  | [] => none
  | _ => parseDigitsAux 0 s

/-- Python `int(s)` for the token shapes this script produces: an optional
sign followed by decimal digits; anything else raises `ValueError`. -/
def pyIntChars (s : List Char) : Except PyErr Int :=
  match s with
  | '-' :: rest =>
    match parseDigits rest with
    | some n => .ok (-(n : Int))
    | none => .error .valueError
  | '+' :: rest =>
    match parseDigits rest with
    | some n => .ok (n : Int)
    | none => .error .valueError
  | _ =>
    match parseDigits s with
    | some n => .ok (n : Int)
    | none => .error .valueError

/-- Python `range(start, stop)` as a list of integers. -/
def pyRange (start stop : Int) : List Int :=
  (List.range (stop - start).toNat).map (fun i => start + (i : Int))

/-- Python `str(v)` for a scalar. -/
def Scalar.pyStr : Scalar → String
  | .str s => s
  | .int n => intRepr n
  | .bool b => if b then "True" else "False"

/-- Python `repr(v)` for a scalar (strings gain quotes inside list reprs). -/
def Scalar.pyRepr : Scalar → String
  | .str s => "'" ++ s ++ "'"
  | .int n => intRepr n
  | .bool b => if b then "True" else "False"

/-- Python `str(v)` (f-string interpolation) for any configuration value. -/
def Value.pyStr : Value → String
  | .scalar x => x.pyStr
  | .list xs => "[" ++ joinStr ", " (xs.map Scalar.pyRepr) ++ "]"

/-- Python truthiness `if value:`. -/
def Value.truthy : Value → Bool
  | .scalar (.str s) => ¬ (s == "")
  | .scalar (.int n) => ¬ (n == 0)
  | .scalar (.bool b) => b
  | .list xs => ¬ xs.isEmpty

/-- Python `value == ""` (true only for the empty string itself). -/
def Value.eqEmptyStr : Value → Bool
  | .scalar (.str s) => s == ""
  | _ => false

/-- Python iteration `for v in value`: lists yield their elements, strings
yield their characters, integers and booleans raise `TypeError`. -/
def Value.pyIter : Value → Except PyErr (List Scalar)
  | .list xs => .ok xs
  | .scalar (.str s) => .ok (s.data.map (fun c => .str (String.mk [c])))
  | .scalar _ => .error .typeError

/-- Parameter kinds (run_xnat2bids.py lines 30-34). -/
inductive ParamType where
  | PARAM_VAL
  | MULTI_VAL
  | FLAG_ONLY
  | MULTI_FLAG
  deriving DecidableEq, Repr

/-- The parameter schema: name ↦ (kind, needs_binding) (lines 37-53). -/
def xnat2bids_params : List (String × ParamType × Bool) :=
  [ ("bidsmap-file", (.PARAM_VAL, true)),
    ("bids_root", (.PARAM_VAL, true)),
    ("cleanup", (.FLAG_ONLY, false)),
    ("dicomfix-config", (.PARAM_VAL, true)),
    ("export-only", (.FLAG_ONLY, false)),
    ("host", (.PARAM_VAL, false)),
    ("includeseq", (.MULTI_VAL, false)),
    ("log-id", (.PARAM_VAL, false)),
    ("overwrite", (.FLAG_ONLY, false)),
    ("sessions", (.MULTI_VAL, false)),
    ("skip-export", (.FLAG_ONLY, false)),
    ("skipseq", (.MULTI_VAL, false)),
    ("validate_frames", (.FLAG_ONLY, false)),
    ("version", (.PARAM_VAL, false)),
    ("verbose", (.MULTI_FLAG, false)) ]

/-- The selection-parameter schema (lines 55-58). -/
def config_params : List (String × ParamType × Bool) :=
  [ ("project", (.PARAM_VAL, false)),
    ("subjects", (.MULTI_VAL, false)) ]

/-- Python `k in table` for a schema table. -/
def keyIn (k : String) (table : List (String × ParamType × Bool)) : Bool :=
  table.any (fun e => e.1 == k)

/-- Schema lookup `table[k]`. -/
def schemaGet (k : String) (table : List (String × ParamType × Bool)) :
    Option (ParamType × Bool) :=
  (table.find? (fun e => e.1 == k)).map (fun e => e.2)

/-- One comma-token of `extract_params`'s range branch (lines 218-225):
a token with a dash is split into two bounds and expanded into an
inclusive ascending integer range, one `--name v` per integer; other
tokens emit one `--name token`.  Malformed tokens raise `ValueError`. -/
def range_step (param : String) (acc : Except PyErr (List String))
    (val : List Char) : Except PyErr (List String) :=
  match acc with
  | .error e => .error e
  | .ok args =>
    if val.contains '-' then
      match splitChar '-' val with
      | [startval, stopval] =>
        match pyIntChars startval, pyIntChars stopval with
        | .ok a, .ok b =>
          .ok (args ++ (pyRange a (b + 1)).map
            (fun v => "--" ++ param ++ " " ++ intRepr v))
        | _, _ => .error .valueError
      | _ => .error .valueError
    else
      .ok (args ++ ["--" ++ param ++ " " ++ String.mk val])

/-- `extract_params` (lines 210-231): MULTI_VAL parameter compilation.
For `includeseq`/`skipseq` string values, strip spaces, split on commas
and process each token with `range_step`; for every other value iterate
over it, wrapping each element in double quotes.  Returns the
`' '.join`ed argument string. -/
def extract_params (param : String) (value : Value) : Except PyErr String :=
  if (param == "includeseq" || param == "skipseq") &&
      (match value with | .scalar (.str _) => true | _ => false) then
    match value with
    | .scalar (.str s) =>
      let toks := splitChar ',' (removeSpaces s.data)
      (toks.foldl (range_step param) (.ok [])).map joinSpace
    | _ => .error .typeError
  else
    (value.pyIter).map (fun elems =>
      joinSpace (elems.map
        (fun v => "--" ++ param ++ " \"" ++ v.pyStr ++ "\"")))

/-- The positional parameter names of `parse_x2b_params` (line 382). -/
def positional_args : List String := ["sessions", "bids_root"]

/-- Fold a fallible step over a list, aborting at the first error. -/
def foldlE (f : β → α → Except PyErr β) : β → List α → Except PyErr β
  | b, [] => .ok b
  | b, a :: as =>
    match f b a with
    | .error e => .error e
    | .ok b2 => foldlE f b2 as

/-- One iteration of the `parse_x2b_params` loop (lines 393-426) over the
pair `(param, value)`, threading `(x2b_param_list, bindings)`.  In the
source the unknown-key branch logs and then crashes with a `NameError`
(the undefined `k` of line 397) before reaching its `exit()`; either way
compilation aborts, modelled as `PyErr.invalidParam`. -/
def parse_step (acc : List String × List Value) (kv : String × Value) :
    Except PyErr (List String × List Value) :=
  let param := kv.1
  let value := kv.2
  if ¬ (keyIn param xnat2bids_params || keyIn param config_params) then
    .error (.invalidParam param)
  else if value.eqEmptyStr then
    .ok acc
  else if positional_args.contains param || keyIn param config_params then
    .ok acc
  else
    match schemaGet param xnat2bids_params with
    | none => .error (.keyError param)
    | some (ty, needsBinding) =>
      let argList : Except PyErr (List String) :=
        match ty with
        | .PARAM_VAL =>
          .ok (acc.1 ++ ["--" ++ param ++ " \"" ++ value.pyStr ++ "\""])
        | .MULTI_VAL =>
          (extract_params param value).map (fun s => acc.1 ++ [s])
        | .FLAG_ONLY =>
          .ok (if value.truthy then acc.1 ++ ["--" ++ param] else acc.1)
        | .MULTI_FLAG =>
          match value with
          | .scalar (.int n) =>
            .ok (acc.1 ++ List.replicate n.toNat ("--" ++ param))
          | .scalar (.bool b) =>
            .ok (acc.1 ++ List.replicate (if b then 1 else 0) ("--" ++ param))
          | _ => .error .typeError
      argList.map (fun l =>
        (l, if needsBinding then acc.2 ++ [value] else acc.2))

/-- `parse_x2b_params` (lines 380-427): the session id is the first
positional argument; a present `bids_root` is emitted second and recorded
as a binding (with no empty-string check); then every `(param, value)`
pair is compiled by `parse_step`.  Returns `(x2b_param_list, bindings)`. -/
def parse_x2b_params (xnat2bids_dict : Dict) (session : String) :
    Except PyErr (List String × List Value) :=
  let start :=
    match dictGet xnat2bids_dict "bids_root" with
    | some v => ([session, v.pyStr], [Value.s v.pyStr])
    | none => ([session], ([] : List Value))
  foldlE parse_step start xnat2bids_dict

/-- The dictionary assembled by `compile_xnat2bids_list` (lines 447-455):
walk the sections of the merged configuration; the tool-arguments section
replaces the accumulator wholesale, a section named like the session is
`update`d into it, everything else is ignored. -/
def assemble_step (session : String) (d : Dict) (sect : String × Dict) : Dict :=
  if sect.1 == "xnat2bids-args" then sect.2
  else if sect.1 == session then dictUpdate d sect.2
  else d

/-- The fold of lines 447-455 over all configuration sections. -/
def assemble_session_dict (arg_dict : Config) (session : String) : Dict :=
  arg_dict.foldl (assemble_step session) []

/-- `compile_xnat2bids_list` (lines 438-459), without the unused `user`
argument: compile the per-session dictionary into an argument list and a
binding list. -/
def compile_xnat2bids_list (session : String) (arg_dict : Config) :
    Except PyErr (List String × List Value) :=
  parse_x2b_params (assemble_session_dict arg_dict session) session

/-- Python's duplicate probe `[item for item in set(x) if x.count(item) > 1]`
is truthy iff some element occurs more than once; defined for lists and
strings, `TypeError` otherwise (`set()` of a non-iterable). -/
def hasDup : Value → Except PyErr Bool
  | .list xs => .ok (xs.any (fun a => 1 < xs.count a))
  | .scalar (.str s) => .ok (s.data.any (fun c => 1 < s.data.count c))
  | .scalar _ => .error .typeError

/-- The invalid-key loop of `verify_parameters` (lines 67-74): any key of
the tool-arguments section outside both schema tables logs a message and
calls `exit()` (process status 0). -/
def checkKeys : Dict → Except PyErr Unit
  | [] => .ok ()
  | kv :: rest =>
    if ¬ (keyIn kv.1 xnat2bids_params || keyIn kv.1 config_params) then
      .error (.exit 0)
    else checkKeys rest

/-- The duplicate check of `verify_parameters` (lines 77-83) for one of
`subjects`/`sessions`: duplicates call `exit()`. -/
def checkDupFor (d : Dict) (param : String) : Except PyErr Unit :=
  match dictGet d param with
  | none => .ok ()
  | some v =>
    match hasDup v with
    | .error e => .error e
    | .ok b => if b then .error (.exit 0) else .ok ()

/-- `verify_parameters` (lines 64-96) applied to the loaded user
configuration: key validation, duplicate detection, subjects-need-project,
and the subjects/sessions exclusivity check.  Every failure is a bare
`exit()`, i.e. process status 0. -/
def verify_parameters (config_dict : Config) : Except PyErr Unit :=
  match cfgGet config_dict "xnat2bids-args" with
  | none => .error (.keyError "xnat2bids-args")
  | some x2b =>
    match checkKeys x2b with
    | .error e => .error e
    | .ok _ =>
      match checkDupFor x2b "subjects" with
      | .error e => .error e
      | .ok _ =>
        match checkDupFor x2b "sessions" with
        | .error e => .error e
        | .ok _ =>
          if dictHas x2b "subjects" && ¬ dictHas x2b "project" then
            .error (.exit 0)
          else if dictHas x2b "subjects" && dictHas x2b "sessions" then
            .error (.exit 0)
          else .ok ()

/-- `merge_config_files` (lines 353-378): `user_cfg['slurm-args']` is read
unconditionally (a missing scheduler section raises `KeyError`), while the
tool-arguments section is guarded by an `in` test; defaults are laid down
first and user keys update them; all non-reserved user sections are copied
through after the two reserved ones. -/
def merge_config_files (user_cfg default_cfg : Config) : Except PyErr Config :=
  match cfgGet user_cfg "slurm-args" with
  | none => .error (.keyError "slurm-args")
  | some user_slurm =>
    match cfgGet default_cfg "slurm-args" with
    | none => .error (.keyError "slurm-args")
    | some default_slurm =>
      match cfgGet default_cfg "xnat2bids-args" with
      | none => .error (.keyError "xnat2bids-args")
      | some default_x2b =>
        let merged_x2b :=
          match cfgGet user_cfg "xnat2bids-args" with
          | some user_x2b => dictUpdate default_x2b user_x2b
          | none => default_x2b
        let merged_slurm := dictUpdate default_slurm user_slurm
        let others := user_cfg.filter
          (fun s => ¬ (s.1 == "slurm-args" || s.1 == "xnat2bids-args"))
        .ok ([("xnat2bids-args", merged_x2b), ("slurm-args", merged_slurm)]
          ++ others)

/-- Events of one `main` run, at the granularity the ordering claims need. -/
inductive MainEv where
  | resolved
  | submitted
  | exited (code : Nat)
  deriving DecidableEq, Repr

/-- The control flow of `main` (lines 647-755) restricted to the pre-flight
claims, with the diff/update flags off: `verify_parameters` runs first
(line 655); only afterwards does `main` merge configurations and, when a
project, subject list or session list is present, call the remote resolver
`fetch_requested_sessions` (line 681, event `resolved`) and then submit
jobs (line 749, event `submitted`).  A bare `exit()` ends the process with
status 0; an unhandled exception ends it with status 1. -/
def main_flow (user_cfg default_cfg : Config) : List MainEv :=
  match verify_parameters user_cfg with
  | .error (.exit c) => [.exited c]
  | .error _ => [.exited 1]
  | .ok _ =>
    match merge_config_files user_cfg default_cfg with
    | .error _ => [.exited 1]
    | .ok merged =>
      let x2b := (cfgGet merged "xnat2bids-args").getD []
      if dictHas x2b "project" || dictHas x2b "subjects"
          || dictHas x2b "sessions" then
        [.resolved, .submitted]
      else
        [.submitted]

/-- One row of the remote experiment listing (only the `ID` column the
script reads). -/
structure ExpRec where
  ID : String
  deriving DecidableEq, Repr

/-- `extractSessions` (lines 233-237). -/
def extractSessions (results : List ExpRec) : List String :=
  results.map (fun r => r.ID)

/-- Connection-lifecycle events of one resolution pass. -/
inductive RSEv where
  | conn_open
  | get (url : String)
  | conn_close
  deriving DecidableEq, Repr

/-- The per-subject query loop of `get_sessions_from_project_subjects`
(lines 153-164), threading the event trace; a non-success response
(`raise_for_status`) aborts with the trace so far. -/
def subjLoop (remote : String → Except PyErr (List ExpRec))
    (host project : String) :
    List Scalar → List String → List RSEv →
      Except PyErr (List String) × List RSEv
  | [], acc, evs => (.ok acc, evs)
  | subj :: rest, acc, evs =>
    let url := host ++ "/data/projects/" ++ project ++ "/subjects/"
      ++ subj.pyStr ++ "/experiments"
    match remote url with
    | .error e => (.error e, evs ++ [.get url])
    | .ok rs =>
      subjLoop remote host project rest (acc ++ extractSessions rs)
        (evs ++ [.get url])

/-- The query phase of `fetch_requested_sessions` (lines 329-344): the
connection is opened (event `conn_open`), then sessions are resolved from
project+subjects, from the whole project, or not at all.  The HTTP layer
is the `remote` oracle; a `.error` from it models a non-success status
raised by `raise_for_status`, which propagates immediately. -/
def fetch_queried (x2b : Dict) (host : String)
    (remote : String → Except PyErr (List ExpRec)) :
    Except PyErr (List String) × List RSEv :=
  match dictGet x2b "project" with
  | some projv =>
    match dictGet x2b "subjects" with
    | some subjv =>
      match subjv.pyIter with
      | .error e => (.error e, [RSEv.conn_open])
      | .ok subjects =>
        subjLoop remote host projv.pyStr subjects [] [RSEv.conn_open]
    | none =>
      let url := host ++ "/data/projects/" ++ projv.pyStr ++ "/experiments"
      match remote url with
      | .error e => (.error e, [RSEv.conn_open, .get url])
      | .ok rs => (.ok (extractSessions rs), [RSEv.conn_open, .get url])
  | none => (.ok [], [RSEv.conn_open])

/-- `fetch_requested_sessions` continued: the close (line 346, reached
only when no query raised) and the extension with the explicitly
configured session list (lines 348-349, after the close). -/
def fetch_finish (x2b : Dict)
    (queried : Except PyErr (List String) × List RSEv) :
    Except PyErr (List String) × List RSEv :=
  match queried with
  | (.error e, evs) => (.error e, evs)
  | (.ok sessions, evs) =>
    let closed := evs ++ [RSEv.conn_close]
    match dictGet x2b "sessions" with
    | some sv =>
      match sv.pyIter with
      | .error e => (.error e, closed)
      | .ok extra =>
        (.ok (sessions ++ extra.map Scalar.pyStr), closed)
    | none => (.ok sessions, closed)

/-- `fetch_requested_sessions` continued: the whole pass (lines 325-351).
A missing tool-arguments section or host key raises `KeyError` after the
connection is opened; a non-string host raises `TypeError` when the URL
is built. -/
def fetch_requested_sessions (arg_dict : Config)
    (remote : String → Except PyErr (List ExpRec)) :
    Except PyErr (List String) × List RSEv :=
  match cfgGet arg_dict "xnat2bids-args" with
  | none => (.error (.keyError "xnat2bids-args"), [RSEv.conn_open])
  | some x2b =>
    match dictGet x2b "host" with
    | none => (.error (.keyError "host"), [RSEv.conn_open])
    | some hostv =>
      match hostv with
      | .scalar (.str host) => fetch_finish x2b (fetch_queried x2b host remote)
      | _ => (.error .typeError, [RSEv.conn_open])

/-- One compiled job spec as `assemble_argument_lists` stores it:
`(x2b_param_list, slurm_param_list, bindings)`. -/
abbrev JobArgs := List String × List String × List Value

/-- The `needs_validation` accumulation of `launch_x2b_jobs` (lines
515-533): initially false, set whenever a session's compiled argument list
does not contain the `--export-only` element. -/
def launch_needs_validation (argument_lists : List JobArgs) : Bool :=
  argument_lists.foldl
    (fun acc args => if args.1.contains "--export-only" then acc else true)
    false

/-- The credential insertion of `assemble_argument_lists` (lines 471-472):
`list.insert(2, "--user ...")` then `list.insert(3, "--pass ...")`.
`pyInsert` is Python `list.insert`, which appends when the index is past
the end. -/
def pyInsert : List α → Nat → α → List α
  | l, 0, a => a :: l
  | [], _ + 1, a => [a]
  | x :: xs, i + 1, a => x :: pyInsert xs i a

/-- Lines 471-472 of `assemble_argument_lists`. -/
def x2b_insert_creds (user password : String) (l : List String) : List String :=
  pyInsert (pyInsert l 2 ("--user " ++ user)) 3 ("--pass " ++ password)

/-- The `-B`-joined binding string of `launch_x2b_jobs` (line 530). -/
def bindingsString (bindings : List Value) : String :=
  joinSpace (bindings.map (fun p => "-B " ++ p.pyStr))

/-- The wrapped container script of `launch_x2b_jobs` (line 536). -/
def sbatch_script (bindings : List Value) (simg : String)
    (x2b_param_list : List String) : String :=
  "\"\"apptainer exec --no-home " ++ bindingsString bindings ++ " " ++ simg
    ++ " xnat2bids " ++ joinSpace x2b_param_list ++ "\"\""

/-- The `'$'`→`'\$'` escape of line 539. -/
def escDollar (s : List Char) : List Char :=
  s.flatMap (fun c => if c == '$' then ['\\', '$'] else [c])

/-- `\s` of Python's `re` module (the whitespace the commands can hold). -/
def isWS (c : Char) : Bool :=
  c == ' ' || c == '\t' || c == '\n' || c == '\r' || c == '\x0b' || c == '\x0c'

/-- The lookahead `(?=\s--)` of the redaction pattern. -/
def lookWsDashDash : List Char → Bool
  | c1 :: c2 :: c3 :: _ => isWS c1 && c2 == '-' && c3 == '-'
  | _ => false

/-- The lazy `.*?(?=\s--)` tail of the redaction pattern: consume the
shortest run of non-newline characters after which `\s--` follows,
returning the unconsumed suffix. -/
def lazyDots : List Char → Option (List Char)
  | [] => none
  | s@(c :: rest) =>
    if lookWsDashDash s then some s
    else if c == '\n' then none
    else lazyDots rest

/-- The `\s+.*?(?=\s--)` part: greedily consume whitespace (backtracking
into the lazy part), Python `re` semantics. -/
def afterWsLazy : List Char → Option (List Char)
  | [] => none
  | c :: rest =>
    if isWS c then
      match afterWsLazy rest with
      | some t => some t
      | none => lazyDots rest
    else none

/-- Try the redaction pattern `--pass\s+.*?(?=\s--)` anchored at the head
of `s`; on success return the suffix after the matched span. -/
def matchPassAt (s : List Char) : Option (List Char) :=
  if s.take 6 = ("--pass").data then afterWsLazy (s.drop 6) else none

/-- The replacement text of line 548. -/
def redactedToken : List Char :=
  ("--pass [REDACTED]").data

/-- `re.sub` for the fixed pattern of line 548, with explicit fuel (any
fuel at least the string length is exact, see `redactAux_stable`). -/
def redactAux : Nat → List Char → List Char
  | _, [] => []
  | 0, s => s
  | fuel + 1, c :: rest =>
    match matchPassAt (c :: rest) with
    | some suffix => redactedToken ++ redactAux fuel suffix
    | none => c :: redactAux fuel rest

/-- Line 548: `re.sub(r'--pass\s+.*?(?=\s--)', '--pass [REDACTED]', s)`. -/
def redactSub (s : List Char) : List Char :=
  redactAux s.length s

/-- The logged form of the wrapped script (lines 548-554).  The full sbatch
command also carries the scheduler options and `--wrap`; the credential
occurs only inside the wrapped script, so the logged script is where
redaction matters. -/
def logged_wrap_script (bindings : List Value) (simg : String)
    (x2b_param_list : List String) : List Char :=
  redactSub (escDollar (sbatch_script bindings simg x2b_param_list).data)

/-- The script actually executed (lines 542, 558) — never redacted. -/
def executed_wrap_script (bindings : List Value) (simg : String)
    (x2b_param_list : List String) : List Char :=
  escDollar (sbatch_script bindings simg x2b_param_list).data

/-- `needle` occurs as a contiguous substring of `hay`. -/
def listStartsWith : List Char → List Char → Bool
  | [], _ => true
  | _ :: _, [] => false
  | a :: as, b :: bs => a == b && listStartsWith as bs

/-- Substring containment test. -/
def containsSub (needle hay : List Char) : Bool :=
  match hay with
  | [] => listStartsWith needle []
  | _ :: rest => listStartsWith needle hay || containsSub needle rest

/-- A calendar date at midnight, as `datetime.datetime(y, m, d)` compares. -/
structure Date where
  y : Int
  m : Int
  d : Int
  deriving DecidableEq, Repr

/-- `datetime` comparison `a < b` (lexicographic on year, month, day). -/
def dateLt (a b : Date) : Bool :=
  a.y < b.y || (a.y == b.y && (a.m < b.m || (a.m == b.m && a.d < b.d)))

/-- `get_datetime` (lines 250-252): take the date part before the first
space, split it on dashes into year-month-day, and build a midnight
datetime.  Unpacking into three parts fails (`ValueError`) otherwise, as
does `int()` on a non-numeric part or an out-of-range calendar value
(calendar validity is abstracted to the usual field ranges). -/
def get_datetime (date : String) : Except PyErr Date :=
  match splitChar ' ' date.data with
  | [] => .error .valueError
  | first :: _ =>
    match splitChar '-' first with
    | [ys, ms, ds] =>
      match pyIntChars ys, pyIntChars ms, pyIntChars ds with
      | .ok y, .ok m, .ok d =>
        if 1 ≤ y && y ≤ 9999 && 1 ≤ m && m ≤ 12 && 1 ≤ d && d ≤ 31 then
          .ok ⟨y, m, d⟩
        else .error .valueError
      | _, _, _ => .error .valueError
    | _ => .error .valueError

/-- A remote session row: the columns `diff_data_directory` reads. -/
structure XSession where
  label : String
  date : String
  insert_date : String
  ID : String
  deriving DecidableEq, Repr

/-- One entry of the `missing_sessions` list (lines 296, 304). -/
structure Gap where
  pi : String
  study : String
  subject : String
  session : String
  ID : String
  deriving DecidableEq, Repr

/-- Python `str.lower()`. -/
def pyLower (s : String) : String :=
  String.mk (s.data.map Char.toLower)

/-- The subject/sub-session split of `diff_data_directory` (lines 284-290):
a label containing `_` is lowercased and unpacked into exactly two parts
(more than two raises `ValueError`); otherwise the label itself is the
subject and the sub-session defaults to `01`. -/
def subj_sess (label : String) : Except PyErr (String × String) :=
  if label.data.contains '_' then
    match splitChar '_' (pyLower label).data with
    | [a, b] => .ok (String.mk a, String.mk b)
    | _ => .error .valueError
  else
    .ok (label, "01")

/-- The per-session body of the diff loop (lines 278-304).  `fsExists`
models `os.path.exists`; `fsCtime` models the local creation time of a
path truncated to its calendar day (lines 299-301).  Returns the gap
record appended for this session, if any. -/
def diff_session (bids_root pi study : String) (s : XSession)
    (fsExists : String → Bool) (fsCtime : String → Date) :
    Except PyErr (Option Gap) :=
  match get_datetime s.date with
  | .error e => .error e
  | .ok latest_date =>
    match get_datetime s.insert_date with
    | .error e => .error e
    | .ok date_added =>
      match subj_sess s.label with
      | .error e => .error e
      | .ok (subj, sess) =>
        let ses_path := bids_root ++ "/" ++ pi ++ "/study-" ++ study
          ++ "/bids/sub-" ++ subj ++ "/ses-" ++ sess
        if ¬ fsExists ses_path then
          .ok (some ⟨pi, study, subj, sess, s.ID⟩)
        else
          let data_date := fsCtime ses_path
          if dateLt data_date date_added || dateLt data_date latest_date then
            .ok (some ⟨pi, study, subj, sess, s.ID⟩)
          else
            .ok none

/-- The session loop of `diff_data_directory` for one project/study: gap
records accumulate in order; an exception aborts the whole pass (there is
no handler), so no record list is produced at all. -/
def diff_sessions (bids_root pi study : String) (ss : List XSession)
    (fsExists : String → Bool) (fsCtime : String → Date) :
    Except PyErr (List Gap) :=
  foldlE
    (fun acc s =>
      match diff_session bids_root pi study s fsExists fsCtime with
      | .error e => .error e
      | .ok (some g) => .ok (acc ++ [g])
      | .ok none => .ok acc)
    [] ss

/-! Helper lemmas. -/

theorem checkKeys_error_code (d : Dict) (e : PyErr)
    (h : checkKeys d = .error e) : e = .exit 0 := by
  induction d with
  | nil => simp [checkKeys] at h
  | cons kv rest ih =>
    by_cases hk : (keyIn kv.1 xnat2bids_params || keyIn kv.1 config_params) = true
    · rw [checkKeys] at h
      simp [hk] at h
      exact ih h
    · rw [checkKeys] at h
      simp [hk] at h
      exact h.symm

theorem checkKeys_ok_keys (d : Dict) (h : checkKeys d = .ok ()) :
    ∀ x ∈ d, (keyIn x.1 xnat2bids_params || keyIn x.1 config_params) = true := by
  induction d with
  | nil => simp
  | cons kv rest ih =>
    by_cases hk : (keyIn kv.1 xnat2bids_params || keyIn kv.1 config_params) = true
    · rw [checkKeys] at h
      simp [hk] at h
      intro x hx
      rcases List.mem_cons.mp hx with h1 | h2
      · rw [h1]; exact hk
      · exact ih h x h2
    · rw [checkKeys] at h
      simp [hk] at h

theorem checkDupFor_list_code (d : Dict) (p : String) (xs : List Scalar)
    (h : dictGet d p = some (.list xs)) :
    checkDupFor d p = .ok () ∨ checkDupFor d p = .error (.exit 0) := by
  unfold checkDupFor
  rw [h]
  cases hb : xs.any (fun a => 1 < xs.count a) <;> simp [hasDup, hb]

theorem verify_both_exit_zero (u : Config) (x2b : Dict) (ss ts : List Scalar)
    (hx : cfgGet u "xnat2bids-args" = some x2b)
    (hsub : dictGet x2b "subjects" = some (.list ss))
    (hses : dictGet x2b "sessions" = some (.list ts)) :
    verify_parameters u = .error (.exit 0) := by
  cases hck : checkKeys x2b with
  | error e =>
    have he := checkKeys_error_code x2b e hck
    subst he
    simp [verify_parameters, hx, hck]
  | ok u1 =>
    cases u1
    have hhs : dictHas x2b "subjects" = true := by simp [dictHas, hsub]
    have hhe : dictHas x2b "sessions" = true := by simp [dictHas, hses]
    rcases checkDupFor_list_code x2b "subjects" ss hsub with h1 | h1
    · rcases checkDupFor_list_code x2b "sessions" ts hses with h2 | h2
      · by_cases hp : dictHas x2b "project" = true <;>
          simp [verify_parameters, hx, hck, h1, h2, hhs, hhe, hp]
      · simp [verify_parameters, hx, hck, h1, h2]
    · simp [verify_parameters, hx, hck, h1]

/-! C2 theorems. -/

/-- C2 counterexample: a configuration defining both `subjects` and
`sessions` under the tool-arguments section does abort before any
resolution or submission, but the process exit status is 0 (a bare
`exit()`), not the non-zero status the claim requires. -/
theorem C2_counterexample :
    main_flow
        [("xnat2bids-args",
          [("project", Value.s "P"),
           ("subjects", Value.list [.str "a"]),
           ("sessions", Value.list [.str "E1"])])]
        [("xnat2bids-args", [("host", Value.s "h")]), ("slurm-args", [])]
      = [MainEv.exited 0]
    ∧ ∀ c, MainEv.exited c ∈
        main_flow
          [("xnat2bids-args",
            [("project", Value.s "P"),
             ("subjects", Value.list [.str "a"]),
             ("sessions", Value.list [.str "E1"])])]
          [("xnat2bids-args", [("host", Value.s "h")]), ("slurm-args", [])]
        → c = 0 := by
  refine ⟨by decide, ?_⟩
  intro c hc
  rw [show main_flow
      [("xnat2bids-args",
        [("project", Value.s "P"),
         ("subjects", Value.list [.str "a"]),
         ("sessions", Value.list [.str "E1"])])]
      [("xnat2bids-args", [("host", Value.s "h")]), ("slurm-args", [])]
      = [MainEv.exited 0] from by decide] at hc
  simp at hc
  omega

/-- C2 (amended): every user configuration whose tool-arguments section
defines both a `subjects` list and a `sessions` list makes the run abort
during pre-flight validation, before any remote resolution or job
submission — but via a bare `exit()`, so the process exit status is 0,
not non-zero. -/
theorem C2_preflight_abort (user_cfg default_cfg : Config) (x2b : Dict)
    (ss ts : List Scalar)
    (hx : cfgGet user_cfg "xnat2bids-args" = some x2b)
    (hsub : dictGet x2b "subjects" = some (.list ss))
    (hses : dictGet x2b "sessions" = some (.list ts)) :
    main_flow user_cfg default_cfg = [MainEv.exited 0]
    ∧ MainEv.resolved ∉ main_flow user_cfg default_cfg
    ∧ MainEv.submitted ∉ main_flow user_cfg default_cfg := by
  have hv := verify_both_exit_zero user_cfg x2b ss ts hx hsub hses
  unfold main_flow
  rw [hv]
  simp

/-- C2 witness: the amended theorem applied to a concrete configuration. -/
theorem C2_preflight_abort_witness :
    main_flow
        [("xnat2bids-args",
          [("subjects", Value.list [.str "a"]),
           ("sessions", Value.list [.str "E1"])])]
        [("xnat2bids-args", []), ("slurm-args", [])]
      = [MainEv.exited 0] :=
  (C2_preflight_abort
    [("xnat2bids-args",
      [("subjects", Value.list [.str "a"]),
       ("sessions", Value.list [.str "E1"])])]
    [("xnat2bids-args", []), ("slurm-args", [])]
    [("subjects", Value.list [.str "a"]), ("sessions", Value.list [.str "E1"])]
    [.str "a"] [.str "E1"] rfl rfl rfl).1

/-! C3 theorem. -/

/-- C3: evaluating `extract_params` at the failing input.  Compiling the
range string `"1-3"` yields unquoted `--includeseq 1 --includeseq 2
--includeseq 3`, while compiling the explicit list `[1, 2, 3]` yields the
values wrapped in double quotes, so the two compilations differ — the
repository's own tests (`test_extract_params_list`,
`test_parse_x2b_params`) expect the unquoted form for list inputs. -/
theorem C3_range_vs_list_eval :
    extract_params "includeseq" (.scalar (.str "1-3"))
      = .ok "--includeseq 1 --includeseq 2 --includeseq 3"
    ∧ extract_params "includeseq" (.list [.int 1, .int 2, .int 3])
      = .ok "--includeseq \"1\" --includeseq \"2\" --includeseq \"3\""
    ∧ extract_params "includeseq" (.scalar (.str "1-3"))
      ≠ extract_params "includeseq" (.list [.int 1, .int 2, .int 3]) := by
  refine ⟨by decide, by decide, by decide⟩

/-! C4 theorems. -/

theorem needs_validation_foldl (L : List JobArgs) (b : Bool) :
    L.foldl
        (fun acc args => if args.1.contains "--export-only" then acc else true)
        b
      = (b || L.any (fun args => ! args.1.contains "--export-only")) := by
  induction L generalizing b with
  | nil => simp
  | cons a L ih =>
    rw [List.foldl_cons, List.any_cons, ih]
    cases h : a.1.contains "--export-only" <;>
      cases b <;> simp [h]

/-- C4 counterexample: with one compiled job requesting `--export-only`
and one not, the validation job is still submitted
(`launch_needs_validation` is true), so submission is not equivalent to
"no job requested export-only". -/
theorem C4_counterexample :
    ¬ (launch_needs_validation
          [(["--export-only"], [], []), (["x"], [], [])] = true
        ↔ ∀ args ∈ ([(["--export-only"], [], []),
                     (["x"], [], [])] : List JobArgs),
            "--export-only" ∉ args.1) := by
  decide

/-- C4 (amended): the downstream validation job is submitted iff at least
one per-session job did not request export-only mode, i.e. some compiled
argument list lacks `--export-only`. -/
theorem C4_validation_iff (argument_lists : List JobArgs) :
    launch_needs_validation argument_lists = true
      ↔ ∃ args ∈ argument_lists, "--export-only" ∉ args.1 := by
  unfold launch_needs_validation
  rw [needs_validation_foldl]
  simp

/-! C7 theorems. -/

theorem dictGet_middle (pre post : Dict) (k j : String) (v : Value)
    (h : k ≠ j) :
    dictGet (pre ++ (k, v) :: post) j = dictGet (pre ++ post) j := by
  have hmid : List.find? (fun kv => kv.1 == j) ((k, v) :: post)
      = List.find? (fun kv => kv.1 == j) post := by
    rw [List.find?_cons]
    have hne : (((k, v).1 == j)) = false := by simp [h]
    rw [hne]
  simp [dictGet, List.find?_append, hmid]

theorem foldlE_append (f : β → α → Except PyErr β) (b : β) (xs ys : List α) :
    foldlE f b (xs ++ ys)
      = match foldlE f b xs with
        | .ok b2 => foldlE f b2 ys
        | .error e => .error e := by
  induction xs generalizing b with
  | nil => simp [foldlE]
  | cons a xs ih =>
    simp only [List.cons_append, foldlE]
    cases f b a <;> simp [ih]

/-- C7 counterexample: a `bids_root` equal to the empty string still
contributes an (empty) entry to the compiled argument sequence and an
(empty) entry to the binding list, because the positional handling of
`bids_root` has no empty-value check. -/
theorem C7_counterexample :
    parse_x2b_params [("bids_root", Value.s "")] "S"
      = .ok (["S", ""], [Value.s ""]) := by
  decide

/-- C7 (amended): every named (non-positional) parameter whose configured
value is the empty string contributes nothing: removing such an entry
from the dictionary leaves both the compiled argument sequence and the
binding list unchanged.  The positional `bids_root` is the exception the
counterexample exhibits. -/
theorem C7_empty_skipped (pre post : Dict) (k session : String)
    (hk : (keyIn k xnat2bids_params || keyIn k config_params) = true)
    (hkb : k ≠ "bids_root") :
    parse_x2b_params (pre ++ (k, Value.s "") :: post) session
      = parse_x2b_params (pre ++ post) session := by
  unfold parse_x2b_params
  rw [dictGet_middle pre post k "bids_root" (Value.s "") hkb]
  rw [foldlE_append, foldlE_append]
  cases hfold : foldlE parse_step
      (match dictGet (pre ++ post) "bids_root" with
       | some v => ([session, v.pyStr], [Value.s v.pyStr])
       | none => ([session], ([] : List Value))) pre with
  | error e => rfl
  | ok b2 =>
    simp [foldlE, parse_step, hk, Value.eqEmptyStr, Value.s]

/-- C7 witness: the amended theorem at a concrete empty-valued key. -/
theorem C7_empty_skipped_witness :
    parse_x2b_params [("overwrite", Value.s "")] "S"
      = parse_x2b_params [] "S" :=
  C7_empty_skipped [] [] "overwrite" "S" (by decide) (by decide)

/-! C8 theorems. -/

theorem dateLt_asymm (a b : Date) (h : dateLt a b = true) :
    dateLt b a = false := by
  simp only [dateLt, Bool.or_eq_true, Bool.and_eq_true, decide_eq_true_eq,
    beq_iff_eq] at h
  simp only [dateLt, Bool.or_eq_false_iff, Bool.and_eq_false_iff,
    decide_eq_false_iff_not, beq_eq_false_iff_ne, ne_eq]
  omega

/-- C8: the diff engine's per-session rules.  Given parseable remote
dates and a label whose subject/sub-session split succeeds: a
non-existent local path always yields a (MISSING) gap record; an existing
local path whose creation date is strictly later than both remote dates
yields no record; and for an existing path a (STALE) record is produced
exactly when either remote date is strictly later than the local creation
date. -/
theorem C8_diff_rules (bids_root pi study : String) (s : XSession)
    (fsExists : String → Bool) (fsCtime : String → Date)
    (dl da : Date) (subj sess : String)
    (h1 : get_datetime s.date = .ok dl)
    (h2 : get_datetime s.insert_date = .ok da)
    (h3 : subj_sess s.label = .ok (subj, sess)) :
    (fsExists (bids_root ++ "/" ++ pi ++ "/study-" ++ study ++ "/bids/sub-"
        ++ subj ++ "/ses-" ++ sess) = false →
      diff_session bids_root pi study s fsExists fsCtime
        = .ok (some ⟨pi, study, subj, sess, s.ID⟩))
    ∧ (fsExists (bids_root ++ "/" ++ pi ++ "/study-" ++ study ++ "/bids/sub-"
        ++ subj ++ "/ses-" ++ sess) = true →
      dateLt da (fsCtime (bids_root ++ "/" ++ pi ++ "/study-" ++ study
        ++ "/bids/sub-" ++ subj ++ "/ses-" ++ sess)) = true →
      dateLt dl (fsCtime (bids_root ++ "/" ++ pi ++ "/study-" ++ study
        ++ "/bids/sub-" ++ subj ++ "/ses-" ++ sess)) = true →
      diff_session bids_root pi study s fsExists fsCtime = .ok none)
    ∧ (fsExists (bids_root ++ "/" ++ pi ++ "/study-" ++ study ++ "/bids/sub-"
        ++ subj ++ "/ses-" ++ sess) = true →
      (diff_session bids_root pi study s fsExists fsCtime
          = .ok (some ⟨pi, study, subj, sess, s.ID⟩)
        ↔ (dateLt (fsCtime (bids_root ++ "/" ++ pi ++ "/study-" ++ study
            ++ "/bids/sub-" ++ subj ++ "/ses-" ++ sess)) da
          || dateLt (fsCtime (bids_root ++ "/" ++ pi ++ "/study-" ++ study
            ++ "/bids/sub-" ++ subj ++ "/ses-" ++ sess)) dl) = true)) := by
  unfold diff_session
  rw [h1, h2, h3]
  refine ⟨?_, ?_, ?_⟩
  · intro hfe
    simp [hfe]
  · intro hfe hlt1 hlt2
    simp [hfe, dateLt_asymm da _ hlt1, dateLt_asymm dl _ hlt2]
  · intro hfe
    cases hc : (dateLt (fsCtime (bids_root ++ "/" ++ pi ++ "/study-" ++ study
        ++ "/bids/sub-" ++ subj ++ "/ses-" ++ sess)) da
      || dateLt (fsCtime (bids_root ++ "/" ++ pi ++ "/study-" ++ study
        ++ "/bids/sub-" ++ subj ++ "/ses-" ++ sess)) dl) <;>
      simp_all [hfe]

/-- C8 witness: the MISSING rule at a concrete session. -/
theorem C8_diff_rules_witness :
    diff_session "/r" "pi" "st"
        ⟨"SUB_01", "2024-05-01", "2024-04-01", "E1"⟩
        (fun _ => false) (fun _ => ⟨2024, 1, 1⟩)
      = .ok (some ⟨"pi", "st", "sub", "01", "E1"⟩) :=
  (C8_diff_rules "/r" "pi" "st"
    ⟨"SUB_01", "2024-05-01", "2024-04-01", "E1"⟩
    (fun _ => false) (fun _ => ⟨2024, 1, 1⟩)
    ⟨2024, 5, 1⟩ ⟨2024, 4, 1⟩ "sub" "01"
    (by decide) (by decide) (by decide)).1 rfl

/-! C9 theorems. -/

theorem splitChar_ne_nil (sep : Char) (l : List Char) :
    splitChar sep l ≠ [] := by
  cases l with
  | nil => simp [splitChar]
  | cons c rest =>
    cases hr : splitChar sep rest with
    | nil => simp [splitChar, hr]
    | cons t ts =>
      by_cases hc : c = sep <;> simp [splitChar, hr, hc]

theorem splitChar_length (sep : Char) (l : List Char) :
    (splitChar sep l).length = l.count sep + 1 := by
  induction l with
  | nil => simp [splitChar]
  | cons c rest ih =>
    cases hr : splitChar sep rest with
    | nil => exact absurd hr (splitChar_ne_nil sep rest)
    | cons t ts =>
      rw [hr] at ih
      simp only [List.length_cons] at ih
      by_cases hc : c = sep <;>
        simp [splitChar, hr, hc, List.count_cons] <;> omega

theorem count_lower_ge (l : List Char) :
    l.count '_' ≤ (l.map Char.toLower).count '_' := by
  induction l with
  | nil => simp
  | cons c rest ih =>
    by_cases hc : c = '_'
    · subst hc
      have hl : Char.toLower '_' = '_' := by decide
      simp [List.count_cons, hl]
      omega
    · rw [List.map_cons, List.count_cons_of_ne (Ne.symm hc)]
      cases h2 : (c.toLower == '_') with
      | false =>
        have h3 : ('_' : Char) ≠ c.toLower :=
          Ne.symm (beq_eq_false_iff_ne.mp h2)
        rw [List.count_cons_of_ne h3]
        exact ih
      | true =>
        have h4 : c.toLower = '_' := beq_iff_eq.mp h2
        rw [h4, List.count_cons_self]
        omega

theorem subj_sess_multi (label : String)
    (h : 2 ≤ label.data.count '_') :
    subj_sess label = .error .valueError := by
  unfold subj_sess
  have hcon : label.data.contains '_' = true := by
    have hpos : 0 < label.data.count '_' := by omega
    rw [List.count_pos_iff] at hpos
    simpa using hpos
  rw [if_pos hcon]
  have hlen : 3 ≤ (splitChar '_' (pyLower label).data).length := by
    rw [show (pyLower label).data = label.data.map Char.toLower from rfl]
    rw [splitChar_length]
    have := count_lower_ge label.data
    omega
  cases hsp : splitChar '_' (pyLower label).data with
  | nil => simp [hsp] at hlen
  | cons a rest =>
    cases rest with
    | nil => simp [hsp] at hlen
    | cons b rest2 =>
      cases rest2 with
      | nil => simp [hsp] at hlen
      | cons c rest3 => simp [hsp]

theorem diff_session_value_error (bids_root pi study : String)
    (bad : XSession) (fsExists : String → Bool) (fsCtime : String → Date)
    (dl da : Date)
    (hsep : 2 ≤ bad.label.data.count '_')
    (h1 : get_datetime bad.date = .ok dl)
    (h2 : get_datetime bad.insert_date = .ok da) :
    diff_session bids_root pi study bad fsExists fsCtime
      = .error .valueError := by
  unfold diff_session
  rw [h1, h2, subj_sess_multi bad.label hsep]

/-- C9: a remote session whose label contains two or more `_` separators
makes the two-element unpacking of the split label raise `ValueError`,
aborting the whole diff pass: when every session before it processes
without error, the session loop returns no gap-record list at all, for
that session or any later one. -/
theorem C9_multi_separator_abort (bids_root pi study : String)
    (pre post : List XSession) (bad : XSession)
    (fsExists : String → Bool) (fsCtime : String → Date)
    (dl da : Date)
    (hsep : 2 ≤ bad.label.data.count '_')
    (h1 : get_datetime bad.date = .ok dl)
    (h2 : get_datetime bad.insert_date = .ok da)
    (hpre : ∀ s ∈ pre, ∃ r,
      diff_session bids_root pi study s fsExists fsCtime = .ok r) :
    diff_sessions bids_root pi study (pre ++ bad :: post) fsExists fsCtime
      = .error .valueError := by
  unfold diff_sessions
  have hbad := diff_session_value_error bids_root pi study bad fsExists
    fsCtime dl da hsep h1 h2
  have key : ∀ (pre2 : List XSession) (acc : List Gap),
      (∀ s ∈ pre2, ∃ r,
        diff_session bids_root pi study s fsExists fsCtime = .ok r) →
      foldlE
        (fun acc s =>
          match diff_session bids_root pi study s fsExists fsCtime with
          | .error e => .error e
          | .ok (some g) => .ok (acc ++ [g])
          | .ok none => .ok acc)
        acc (pre2 ++ bad :: post) = .error .valueError := by
    intro pre2
    induction pre2 with
    | nil =>
      intro acc _
      simp [foldlE, hbad]
    | cons s pre2 ih =>
      intro acc hp
      obtain ⟨r, hr⟩ := hp s (List.mem_cons_self s pre2)
      cases r with
      | some g =>
        simp only [List.cons_append, foldlE, hr]
        exact ih _ (fun x hx => hp x (List.mem_cons_of_mem s hx))
      | none =>
        simp only [List.cons_append, foldlE, hr]
        exact ih _ (fun x hx => hp x (List.mem_cons_of_mem s hx))
  exact key pre [] hpre

/-- C9 witness: the theorem at a concrete triple-part label. -/
theorem C9_multi_separator_abort_witness :
    diff_sessions "/r" "pi" "st"
        [⟨"A", "2024-05-01", "2024-04-01", "E1"⟩,
         ⟨"S_1_2", "2024-05-01", "2024-04-01", "E2"⟩,
         ⟨"B", "2024-05-01", "2024-04-01", "E3"⟩]
        (fun _ => false) (fun _ => ⟨2024, 1, 1⟩)
      = .error .valueError :=
  C9_multi_separator_abort "/r" "pi" "st"
    [⟨"A", "2024-05-01", "2024-04-01", "E1"⟩]
    [⟨"B", "2024-05-01", "2024-04-01", "E3"⟩]
    ⟨"S_1_2", "2024-05-01", "2024-04-01", "E2"⟩
    (fun _ => false) (fun _ => ⟨2024, 1, 1⟩)
    ⟨2024, 5, 1⟩ ⟨2024, 4, 1⟩
    (by decide) (by decide) (by decide)
    (by
      intro s hs
      simp at hs
      subst hs
      exact ⟨some ⟨"pi", "st", "A", "01", "E1"⟩, by decide⟩)

/-! C10 theorem. -/

/-- C10: the two reserved sections are not treated symmetrically by the
configuration merger.  A user configuration omitting the tool-arguments
section merges fine, but one omitting the scheduler-arguments section
raises an unhandled `KeyError` (`user_cfg['slurm-args']`, line 354)
instead of reporting a configuration error. -/
theorem C10_section_asymmetry (user_cfg default_cfg : Config)
    (dslurm dx2b : Dict)
    (hds : cfgGet default_cfg "slurm-args" = some dslurm)
    (hdx : cfgGet default_cfg "xnat2bids-args" = some dx2b) :
    (cfgGet user_cfg "slurm-args" = none →
      merge_config_files user_cfg default_cfg
        = .error (.keyError "slurm-args"))
    ∧ (∀ uslurm, cfgGet user_cfg "slurm-args" = some uslurm →
      ∃ m, merge_config_files user_cfg default_cfg = .ok m) := by
  constructor
  · intro h
    simp [merge_config_files, h]
  · intro us h
    simp [merge_config_files, h, hds, hdx]

/-- C10 witness: the theorem at concrete configurations — omitting
`slurm-args` raises `KeyError` even though `xnat2bids-args` may be
omitted freely. -/
theorem C10_section_asymmetry_witness :
    merge_config_files [("xnat2bids-args", [])]
        [("xnat2bids-args", []), ("slurm-args", [])]
      = .error (.keyError "slurm-args")
    ∧ ∃ m, merge_config_files [("slurm-args", [])]
        [("xnat2bids-args", []), ("slurm-args", [])] = .ok m :=
  ⟨(C10_section_asymmetry [("xnat2bids-args", [])]
      [("xnat2bids-args", []), ("slurm-args", [])] [] []
      (by decide) (by decide)).1 (by decide),
   (C10_section_asymmetry [("slurm-args", [])]
      [("xnat2bids-args", []), ("slurm-args", [])] [] []
      (by decide) (by decide)).2 [] (by decide)⟩

/-! C5 theorems. -/

theorem verify_ok_x2b (u : Config) (h : verify_parameters u = .ok ()) :
    ∃ x2b, cfgGet u "xnat2bids-args" = some x2b ∧ checkKeys x2b = .ok () := by
  cases hx : cfgGet u "xnat2bids-args" with
  | none => simp [verify_parameters, hx] at h
  | some x2b =>
    refine ⟨x2b, rfl, ?_⟩
    cases hck : checkKeys x2b with
    | error e => simp [verify_parameters, hx, hck] at h
    | ok u1 => cases u1; rfl

theorem mem_dictSet_key (d : Dict) (k : String) (v : Value)
    (x : String × Value) (hx : x ∈ dictSet d k v) :
    (∃ y ∈ d, x.1 = y.1) ∨ x.1 = k := by
  unfold dictSet at hx
  by_cases hany : d.any (fun kv => kv.1 == k) = true
  · rw [if_pos hany] at hx
    obtain ⟨y, hy, hxy⟩ := List.mem_map.mp hx
    by_cases hyk : (y.1 == k) = true
    · right
      rw [← hxy]
      simp [hyk]
    · left
      refine ⟨y, hy, ?_⟩
      rw [← hxy]
      simp [hyk]
  · rw [if_neg hany] at hx
    rcases List.mem_append.mp hx with h1 | h2
    · exact Or.inl ⟨x, h1, rfl⟩
    · right
      simp at h2
      rw [h2]

theorem mem_dictUpdate_key (d u : Dict) (x : String × Value)
    (hx : x ∈ dictUpdate d u) :
    (∃ y ∈ d, x.1 = y.1) ∨ (∃ y ∈ u, x.1 = y.1) := by
  induction u generalizing d with
  | nil => exact Or.inl ⟨x, hx, rfl⟩
  | cons kv u ih =>
    rw [show dictUpdate d (kv :: u) = dictUpdate (dictSet d kv.1 kv.2) u
      from rfl] at hx
    rcases ih (dictSet d kv.1 kv.2) hx with h1 | h2
    · obtain ⟨y, hy, hxy⟩ := h1
      rcases mem_dictSet_key d kv.1 kv.2 y hy with h3 | h3
      · obtain ⟨z, hz, hyz⟩ := h3
        exact Or.inl ⟨z, hz, hxy.trans hyz⟩
      · exact Or.inr ⟨kv, List.mem_cons_self kv u, hxy.trans h3⟩
    · obtain ⟨y, hy, hxy⟩ := h2
      exact Or.inr ⟨y, List.mem_cons_of_mem kv hy, hxy⟩

theorem assemble_fold_keys (session : String) (P : String → Prop)
    (L : List (String × Dict)) (d : Dict)
    (hd : ∀ x ∈ d, P x.1)
    (hL : ∀ sect ∈ L, (sect.1 = "xnat2bids-args" ∨ sect.1 = session) →
      ∀ x ∈ sect.2, P x.1) :
    ∀ x ∈ L.foldl (assemble_step session) d, P x.1 := by
  induction L generalizing d with
  | nil => exact hd
  | cons sect L ih =>
    rw [List.foldl_cons]
    apply ih
    · intro x hx
      unfold assemble_step at hx
      by_cases h1 : (sect.1 == "xnat2bids-args") = true
      · rw [if_pos h1] at hx
        exact hL sect (List.mem_cons_self sect L)
          (Or.inl (by simpa using h1)) x hx
      · rw [if_neg h1] at hx
        by_cases h2 : (sect.1 == session) = true
        · rw [if_pos h2] at hx
          rcases mem_dictUpdate_key d sect.2 x hx with h3 | h3
          · obtain ⟨y, hy, hxy⟩ := h3
            rw [hxy]
            exact hd y hy
          · obtain ⟨y, hy, hxy⟩ := h3
            rw [hxy]
            exact hL sect (List.mem_cons_self sect L)
              (Or.inr (by simpa using h2)) y hy
        · rw [if_neg h2] at hx
          exact hd x hx
    · intro s hs hname x hx
      exact hL s (List.mem_cons_of_mem sect hs) hname x hx

theorem range_fold_err (p : String) (toks : List (List Char))
    (acc : Except PyErr (List String)) (e : PyErr)
    (h : toks.foldl (range_step p) acc = .error e) :
    acc = .error e ∨ e = .valueError := by
  induction toks generalizing acc with
  | nil => exact Or.inl h
  | cons t toks ih =>
    rw [List.foldl_cons] at h
    rcases ih (range_step p acc t) h with h1 | h1
    · cases acc with
      | error e2 =>
        left
        simpa [range_step] using h1
      | ok args =>
        right
        simp only [range_step] at h1
        split at h1
        · split at h1
          · split at h1 <;> simp_all
          · simp_all
        · simp_all
    · exact Or.inr h1

theorem extract_params_no_invalid (p : String) (v : Value) (k : String) :
    extract_params p v ≠ .error (.invalidParam k) := by
  cases v with
  | list xs => simp [extract_params, Value.pyIter, Except.map]
  | scalar sc =>
    cases sc with
    | str s =>
      by_cases hp : (p == "includeseq" || p == "skipseq") = true
      · simp only [extract_params, hp, Bool.true_and]
        intro h
        cases hf : (splitChar ',' (removeSpaces s.data)).foldl
            (range_step p) (.ok []) with
        | ok l => simp [hf, Except.map] at h
        | error e =>
          rw [hf] at h
          simp [Except.map] at h
          rcases range_fold_err p _ _ e hf with h2 | h2 <;> simp_all
      · simp [extract_params, hp, Value.pyIter, Except.map]
    | int n => simp [extract_params, Value.pyIter, Except.map]
    | bool b => simp [extract_params, Value.pyIter, Except.map]

theorem parse_step_no_invalid (acc : List String × List Value)
    (kv : String × Value) (k : String)
    (hk : (keyIn kv.1 xnat2bids_params || keyIn kv.1 config_params) = true) :
    parse_step acc kv ≠ .error (.invalidParam k) := by
  unfold parse_step
  rw [if_neg (by simp [hk])]
  by_cases h2 : kv.2.eqEmptyStr = true
  · simp [h2]
  · rw [if_neg (by simp [h2])]
    by_cases h3 : (positional_args.contains kv.1
        || keyIn kv.1 config_params) = true
    · rw [if_pos (by simpa using h3)]
      simp
    · rw [if_neg (by simpa using h3)]
      cases hs : schemaGet kv.1 xnat2bids_params with
      | none => simp
      | some tb =>
        obtain ⟨ty, nb⟩ := tb
        cases ty with
        | PARAM_VAL => simp [Except.map]
        | MULTI_VAL =>
          intro h
          cases he : extract_params kv.1 kv.2 with
          | ok s2 => simp [he, Except.map] at h
          | error e =>
            rw [he] at h
            simp [Except.map] at h
            exact extract_params_no_invalid kv.1 kv.2 k (by rw [he, h])
        | FLAG_ONLY => simp [Except.map]
        | MULTI_FLAG =>
          cases kv.2 with
          | list xs => simp [Except.map]
          | scalar sc => cases sc <;> simp [Except.map]

theorem foldlE_parse_no_invalid (d : Dict)
    (hkeys : ∀ x ∈ d,
      (keyIn x.1 xnat2bids_params || keyIn x.1 config_params) = true) :
    ∀ (acc : List String × List Value) (k : String),
      foldlE parse_step acc d ≠ .error (.invalidParam k) := by
  induction d with
  | nil => intro acc k; simp [foldlE]
  | cons kv d ih =>
    intro acc k
    have hkv := hkeys kv (List.mem_cons_self kv d)
    cases hstep : parse_step acc kv with
    | error e =>
      simp only [foldlE, hstep]
      intro h
      apply parse_step_no_invalid acc kv k hkv
      rw [hstep]
      simpa using h
    | ok b2 =>
      simp only [foldlE, hstep]
      exact ih (fun x hx => hkeys x (List.mem_cons_of_mem kv hx)) b2 k

theorem parse_no_invalid (d : Dict) (session : String)
    (hkeys : ∀ x ∈ d,
      (keyIn x.1 xnat2bids_params || keyIn x.1 config_params) = true) :
    ∀ k, parse_x2b_params d session ≠ .error (.invalidParam k) := by
  intro k
  unfold parse_x2b_params
  exact foldlE_parse_no_invalid d hkeys _ k

/-- C5 counterexample: the pre-flight validator only inspects the
tool-arguments section, so a session-override block with an unknown key
passes validation, and the compiler's unknown-key branch is reached when
that session is compiled (claimed unreachable). -/
theorem C5_counterexample :
    verify_parameters
        [("slurm-args", []),
         ("xnat2bids-args", [("sessions", Value.list [.str "S1"])]),
         ("S1", [("bogus", Value.s "x")])]
      = .ok ()
    ∧ (merge_config_files
        [("slurm-args", []),
         ("xnat2bids-args", [("sessions", Value.list [.str "S1"])]),
         ("S1", [("bogus", Value.s "x")])]
        [("xnat2bids-args", [("host", Value.s "h")]),
         ("slurm-args", [])]).map
        (fun m => compile_xnat2bids_list "S1" m)
      = .ok (.error (.invalidParam "bogus")) := by
  exact ⟨by decide, by decide⟩

/-- C5 (amended): validation covers only the tool-arguments section, so
unknown keys can reach the compiler through session-override blocks; when
the default configuration keys, the (validated) user tool-arguments keys
and all session-override-block keys are in the schema, the compiler's
unknown-key branch is unreachable. -/
theorem C5_schema_keys (user_cfg default_cfg merged : Config) (dx2b : Dict)
    (session : String)
    (hses2 : session ≠ "slurm-args")
    (hdx : cfgGet default_cfg "xnat2bids-args" = some dx2b)
    (hdkeys : ∀ x ∈ dx2b,
      (keyIn x.1 xnat2bids_params || keyIn x.1 config_params) = true)
    (hver : verify_parameters user_cfg = .ok ())
    (hblocks : ∀ sect ∈ user_cfg, sect.1 ≠ "xnat2bids-args" →
      sect.1 ≠ "slurm-args" → ∀ x ∈ sect.2,
      (keyIn x.1 xnat2bids_params || keyIn x.1 config_params) = true)
    (hm : merge_config_files user_cfg default_cfg = .ok merged) :
    ∀ k, compile_xnat2bids_list session merged
      ≠ .error (.invalidParam k) := by
  obtain ⟨ux2b, hux, hck⟩ := verify_ok_x2b user_cfg hver
  have huk := checkKeys_ok_keys ux2b hck
  cases hus : cfgGet user_cfg "slurm-args" with
  | none => simp [merge_config_files, hus] at hm
  | some uslurm =>
    cases hds : cfgGet default_cfg "slurm-args" with
    | none => simp [merge_config_files, hus, hds] at hm
    | some dslurm =>
      rw [merge_config_files, hus, hds, hdx, hux] at hm
      simp only [Except.ok.injEq] at hm
      intro k
      unfold compile_xnat2bids_list
      apply parse_no_invalid
      unfold assemble_session_dict
      rw [← hm]
      apply assemble_fold_keys session
        (fun s => (keyIn s xnat2bids_params || keyIn s config_params) = true)
      · simp
      · intro sect hsect hname
        rcases List.mem_append.mp hsect with hfirst | hothers
        · rcases List.mem_cons.mp hfirst with h1 | h1
          · rw [h1]
            intro x hx
            rcases mem_dictUpdate_key dx2b ux2b x hx with h3 | h3
            · obtain ⟨y, hy, hxy⟩ := h3
              rw [hxy]
              exact hdkeys y hy
            · obtain ⟨y, hy, hxy⟩ := h3
              rw [hxy]
              exact huk y hy
          · simp at h1
            rw [h1] at hname
            rcases hname with h4 | h4
            · simp at h4
            · exact absurd h4.symm hses2
        · have hmem := List.mem_filter.mp hothers
          refine hblocks sect hmem.1 ?_ ?_
          · intro hcon
            simp [hcon] at hmem
          · intro hcon
            simp [hcon] at hmem

/-- C5 witness: the amended theorem at a concrete configuration with a
valid session-override block. -/
theorem C5_schema_keys_witness :
    compile_xnat2bids_list "S1"
        [("xnat2bids-args",
          [("host", Value.s "h"), ("sessions", Value.list [.str "S1"])]),
         ("slurm-args", []),
         ("S1", [("overwrite", Value.scalar (.bool true))])]
      ≠ .error (.invalidParam "bogus") :=
  C5_schema_keys
    [("slurm-args", []),
     ("xnat2bids-args", [("sessions", Value.list [.str "S1"])]),
     ("S1", [("overwrite", Value.scalar (.bool true))])]
    [("xnat2bids-args", [("host", Value.s "h")]), ("slurm-args", [])]
    [("xnat2bids-args",
      [("host", Value.s "h"), ("sessions", Value.list [.str "S1"])]),
     ("slurm-args", []),
     ("S1", [("overwrite", Value.scalar (.bool true))])]
    [("host", Value.s "h")] "S1"
    (by decide) (by decide) (by decide) (by decide)
    (by decide) (by decide) "bogus"

/-! C6 theorems. -/

theorem subjLoop_trace (remote : String → Except PyErr (List ExpRec))
    (host project : String) (l : List Scalar) :
    ∀ (acc : List String) (evs : List RSEv), ∃ gs,
      (∀ e ∈ gs, ∃ u, e = RSEv.get u) ∧
      (subjLoop remote host project l acc evs).2 = evs ++ gs := by
  induction l with
  | nil =>
    intro acc evs
    exact ⟨[], by simp, by simp [subjLoop]⟩
  | cons subj rest ih =>
    intro acc evs
    cases hr : remote (host ++ "/data/projects/" ++ project ++ "/subjects/"
        ++ subj.pyStr ++ "/experiments") with
    | error e =>
      refine ⟨[.get (host ++ "/data/projects/" ++ project ++ "/subjects/"
        ++ subj.pyStr ++ "/experiments")], ?_, ?_⟩
      · simp
      · simp [subjLoop, hr]
    | ok rs =>
      obtain ⟨gs, hg, htr⟩ := ih (acc ++ extractSessions rs)
        (evs ++ [.get (host ++ "/data/projects/" ++ project ++ "/subjects/"
          ++ subj.pyStr ++ "/experiments")])
      refine ⟨.get (host ++ "/data/projects/" ++ project ++ "/subjects/"
        ++ subj.pyStr ++ "/experiments") :: gs, ?_, ?_⟩
      · intro e he
        rcases List.mem_cons.mp he with h1 | h1
        · exact ⟨host ++ "/data/projects/" ++ project ++ "/subjects/"
            ++ subj.pyStr ++ "/experiments", h1⟩
        · exact hg e h1
      · rw [show subjLoop remote host project (subj :: rest) acc evs
            = subjLoop remote host project rest (acc ++ extractSessions rs)
              (evs ++ [.get (host ++ "/data/projects/" ++ project
                ++ "/subjects/" ++ subj.pyStr ++ "/experiments")])
          from by simp [subjLoop, hr]]
        rw [htr]
        simp

/-- C6 counterexample: when a remote query returns a non-success status,
the connection is opened and queried but `connection.close()` (line 346)
is never executed — there is no try/finally — so the claim that the
connection is closed before the pass returns regardless of failure is
false. -/
theorem C6_counterexample :
    ((fetch_requested_sessions
        [("xnat2bids-args",
          [("host", Value.s "h"), ("project", Value.s "P")]),
         ("slurm-args", [])]
        (fun _ => .error .remote)).2.contains RSEv.conn_close = false)
    ∧ ((fetch_requested_sessions
        [("xnat2bids-args",
          [("host", Value.s "h"), ("project", Value.s "P")]),
         ("slurm-args", [])]
        (fun _ => .error .remote)).2.contains RSEv.conn_open = true)
    ∧ ((fetch_requested_sessions
        [("xnat2bids-args",
          [("host", Value.s "h"), ("project", Value.s "P")]),
         ("slurm-args", [])]
        (fun _ => .error .remote)).1 = .error .remote) := by
  exact ⟨by decide, by decide, by decide⟩

/-- C6 (amended): one resolution pass opens exactly one connection first,
then performs only queries; when the pass succeeds the connection is
closed exactly once, after all queries; when any step fails the pass
aborts with the exception and the connection is never closed.  (The
hypothesis excludes the unrelated corner of a non-iterable configured
session list, whose `TypeError` is raised after the close.) -/
theorem C6_connection_scope (arg_dict : Config)
    (remote : String → Except PyErr (List ExpRec))
    (hiter : ∀ x2b v, cfgGet arg_dict "xnat2bids-args" = some x2b →
      dictGet x2b "sessions" = some v → ∃ l, v.pyIter = .ok l) :
    ∃ gets, (∀ e ∈ gets, ∃ u, e = RSEv.get u) ∧
      (fetch_requested_sessions arg_dict remote).2
        = RSEv.conn_open :: gets
          ++ (match (fetch_requested_sessions arg_dict remote).1 with
              | .ok _ => [RSEv.conn_close]
              | .error _ => []) := by
  have hqueried : ∀ (x2b : Dict) (host : String), ∃ gs,
      (∀ e ∈ gs, ∃ u, e = RSEv.get u) ∧
      (fetch_queried x2b host remote).2 = RSEv.conn_open :: gs := by
    intro x2b host
    unfold fetch_queried
    cases hp : dictGet x2b "project" with
    | none => exact ⟨[], by simp, by simp⟩
    | some projv =>
      cases hsj : dictGet x2b "subjects" with
      | none =>
        cases hr : remote (host ++ "/data/projects/" ++ projv.pyStr
            ++ "/experiments") with
        | error e =>
          exact ⟨[.get (host ++ "/data/projects/" ++ projv.pyStr
            ++ "/experiments")], by simp, by simp [hr]⟩
        | ok rs =>
          exact ⟨[.get (host ++ "/data/projects/" ++ projv.pyStr
            ++ "/experiments")], by simp, by simp [hr]⟩
      | some subjv =>
        cases hi : subjv.pyIter with
        | error e => exact ⟨[], by simp, by simp [hi]⟩
        | ok subjects =>
          obtain ⟨gs, hgs, htr⟩ := subjLoop_trace remote host projv.pyStr
            subjects [] [RSEv.conn_open]
          exact ⟨gs, hgs, by simp [hi, htr]⟩
  have hfinish : ∀ (x2b : Dict)
      (queried : Except PyErr (List String) × List RSEv) (gs : List RSEv),
      cfgGet arg_dict "xnat2bids-args" = some x2b →
      queried.2 = RSEv.conn_open :: gs →
      (fetch_finish x2b queried).2
        = RSEv.conn_open :: gs
          ++ (match (fetch_finish x2b queried).1 with
              | .ok _ => [RSEv.conn_close]
              | .error _ => []) := by
    rintro x2b ⟨r, evs⟩ gs hx hevs
    simp only at hevs
    cases r with
    | error e => simp [fetch_finish, hevs]
    | ok sessions =>
      cases hs : dictGet x2b "sessions" with
      | none => simp [fetch_finish, hevs, hs]
      | some sv =>
        obtain ⟨l2, hl2⟩ := hiter x2b sv hx hs
        simp [fetch_finish, hevs, hs, hl2]
  cases hx : cfgGet arg_dict "xnat2bids-args" with
  | none => exact ⟨[], by simp, by simp [fetch_requested_sessions, hx]⟩
  | some x2b =>
    cases hh : dictGet x2b "host" with
    | none => exact ⟨[], by simp, by simp [fetch_requested_sessions, hx, hh]⟩
    | some hv =>
      cases hv with
      | list xs =>
        exact ⟨[], by simp, by simp [fetch_requested_sessions, hx, hh]⟩
      | scalar sc =>
        cases sc with
        | int n =>
          exact ⟨[], by simp, by simp [fetch_requested_sessions, hx, hh]⟩
        | bool b =>
          exact ⟨[], by simp, by simp [fetch_requested_sessions, hx, hh]⟩
        | str host =>
          obtain ⟨gs, hgs, htr⟩ := hqueried x2b host
          refine ⟨gs, hgs, ?_⟩
          rw [show fetch_requested_sessions arg_dict remote
              = fetch_finish x2b (fetch_queried x2b host remote)
            from by simp [fetch_requested_sessions, hx, hh]]
          exact hfinish x2b (fetch_queried x2b host remote) gs hx htr

/-- C6 witness: the amended theorem at a concrete configuration and
remote oracle. -/
theorem C6_connection_scope_witness :
    ∃ gets, (∀ e ∈ gets, ∃ u, e = RSEv.get u) ∧
      (fetch_requested_sessions
          [("xnat2bids-args",
            [("host", Value.s "h"), ("project", Value.s "P")]),
           ("slurm-args", [])]
          (fun _ => .ok [⟨"E1"⟩])).2
        = RSEv.conn_open :: gets
          ++ (match (fetch_requested_sessions
              [("xnat2bids-args",
                [("host", Value.s "h"), ("project", Value.s "P")]),
               ("slurm-args", [])]
              (fun _ => .ok [⟨"E1"⟩])).1 with
              | .ok _ => [RSEv.conn_close]
              | .error _ => []) :=
  C6_connection_scope
    [("xnat2bids-args", [("host", Value.s "h"), ("project", Value.s "P")]),
     ("slurm-args", [])]
    (fun _ => .ok [⟨"E1"⟩])
    (by
      intro x2b v hx hv
      rw [show cfgGet
          [("xnat2bids-args",
            [("host", Value.s "h"), ("project", Value.s "P")]),
           ("slurm-args", [])] "xnat2bids-args"
          = some [("host", Value.s "h"), ("project", Value.s "P")]
        from by decide] at hx
      injection hx with hx2
      rw [← hx2] at hv
      rw [show dictGet [("host", Value.s "h"), ("project", Value.s "P")]
          "sessions" = none from by decide] at hv
      cases hv)

/-! C1 theorems: the redaction machinery. -/

theorem lazyDots_len (s t : List Char) (h : lazyDots s = some t) :
    t.length ≤ s.length := by
  induction s with
  | nil => simp [lazyDots] at h
  | cons c rest ih =>
    rw [lazyDots] at h
    split at h
    · cases h
      exact Nat.le_refl _
    · split at h
      · cases h
      · have := ih h
        simp only [List.length_cons]
        omega

theorem afterWsLazy_len (s t : List Char) (h : afterWsLazy s = some t) :
    t.length + 1 ≤ s.length := by
  induction s with
  | nil => simp [afterWsLazy] at h
  | cons c rest ih =>
    rw [afterWsLazy] at h
    split at h
    · split at h
      · rename_i t2 heq
        cases h
        have := ih heq
        simp only [List.length_cons]
        omega
      · have := lazyDots_len rest t h
        simp only [List.length_cons]
        omega
    · cases h

theorem matchPassAt_len (s t : List Char) (h : matchPassAt s = some t) :
    t.length + 7 ≤ s.length := by
  unfold matchPassAt at h
  split at h
  · rename_i h6
    have hlen6 : 6 ≤ s.length := by
      have := congrArg List.length h6
      simp [List.length_take] at this
      omega
    have hd := afterWsLazy_len (s.drop 6) t h
    simp only [List.length_drop] at hd
    omega
  · cases h

theorem redactAux_stable (fuel : Nat) :
    ∀ s : List Char, s.length ≤ fuel → redactAux fuel s = redactAux s.length s := by
  induction fuel using Nat.strong_induction_on with
  | _ fuel ih =>
    intro s hs
    cases s with
    | nil => simp [redactAux]
    | cons c rest =>
      simp only [List.length_cons] at hs
      obtain ⟨f, rfl⟩ : ∃ f, fuel = f + 1 := ⟨fuel - 1, by omega⟩
      simp only [List.length_cons, redactAux]
      cases hm : matchPassAt (c :: rest) with
      | none =>
        simp only
        congr 1
        exact ih f (by omega) rest (by omega)
      | some suf =>
        have hlen := matchPassAt_len (c :: rest) suf hm
        simp only [List.length_cons] at hlen
        simp only
        congr 1
        rw [ih f (by omega) suf (by omega),
          ih rest.length (by omega) suf (by omega)]

theorem redactSub_cons_none (c : Char) (s : List Char)
    (h : matchPassAt (c :: s) = none) :
    redactSub (c :: s) = c :: redactSub s := by
  unfold redactSub
  simp only [List.length_cons, redactAux, h]

theorem redactSub_cons_some (c : Char) (s suf : List Char)
    (h : matchPassAt (c :: s) = some suf) :
    redactSub (c :: s) = redactedToken ++ redactSub suf := by
  have hlen := matchPassAt_len (c :: s) suf h
  simp only [List.length_cons] at hlen
  unfold redactSub
  simp only [List.length_cons, redactAux, h]
  congr 1
  exact redactAux_stable s.length suf (by omega)

theorem matchPassAt_head_ne (c : Char) (s : List Char) (h : c ≠ '-') :
    matchPassAt (c :: s) = none := by
  unfold matchPassAt
  rw [if_neg]
  rw [show ("--pass").data = '-' :: '-' :: 'p' :: 'a' :: 's' :: 's' ::[] from rfl,
    show (c :: s).take 6 = c :: s.take 5 from rfl]
  intro hcontra
  injection hcontra with h1 _
  exact h h1

theorem matchPassAt_two (c : Char) (s : List Char) (h : c ≠ '-') :
    matchPassAt ('-' :: c :: s) = none := by
  unfold matchPassAt
  rw [if_neg]
  rw [show ("--pass").data = '-' :: '-' :: 'p' :: 'a' :: 's' :: 's' ::[] from rfl,
    show ('-' :: c :: s).take 6 = '-' :: c :: s.take 4 from rfl]
  intro hcontra
  injection hcontra with _ h2
  injection h2 with h3 _
  exact h h3

theorem matchPassAt_three (c : Char) (s : List Char) (h : c ≠ 'p') :
    matchPassAt ('-' :: '-' :: c :: s) = none := by
  unfold matchPassAt
  rw [if_neg]
  rw [show ("--pass").data = '-' :: '-' :: 'p' :: 'a' :: 's' :: 's' ::[] from rfl,
    show ('-' :: '-' :: c :: s).take 6 = '-' :: '-' :: c :: s.take 3 from rfl]
  intro hcontra
  injection hcontra with _ h2
  injection h2 with _ h3
  injection h3 with h4 _
  exact h h4

theorem redact_step1 (c : Char) (s : List Char) (h : c ≠ '-') :
    redactSub (c :: s) = c :: redactSub s :=
  redactSub_cons_none c s (matchPassAt_head_ne c s h)

theorem redact_step2 (c : Char) (s : List Char) (h : c ≠ '-') :
    redactSub ('-' :: c :: s) = '-' :: redactSub (c :: s) :=
  redactSub_cons_none '-' (c :: s) (matchPassAt_two c s h)

theorem redact_step3 (c : Char) (s : List Char) (h : c ≠ 'p') :
    redactSub ('-' :: '-' :: c :: s) = '-' :: redactSub ('-' :: c :: s) :=
  redactSub_cons_none '-' ('-' :: c :: s) (matchPassAt_three c s h)

theorem lookWsDashDash_nonws (c : Char) (s : List Char)
    (h : isWS c = false) :
    lookWsDashDash (c :: s) = false := by
  cases s with
  | nil => rfl
  | cons c2 s2 =>
    cases s2 with
    | nil => rfl
    | cons c3 s3 => simp [lookWsDashDash, h]

theorem lazyDots_skip (p s : List Char) (hp : ∀ c ∈ p, isWS c = false) :
    lazyDots (p ++ s) = lazyDots s := by
  induction p with
  | nil => simp
  | cons c p ih =>
    have hc := hp c (List.mem_cons_self c p)
    have hnl : (c == '\n') = false := by
      simp only [isWS, Bool.or_eq_false_iff] at hc
      exact hc.1.1.1.2
    rw [List.cons_append, lazyDots,
      lookWsDashDash_nonws c (p ++ s) hc]
    simp only [Bool.false_eq_true, if_false, hnl]
    exact ih (fun x hx => hp x (List.mem_cons_of_mem c hx))

theorem matchPass_at_cred (pw B : List Char) (hne : pw ≠ [])
    (hws : ∀ c ∈ pw, isWS c = false) (hB : lookWsDashDash B = true) :
    matchPassAt (("--pass ").data ++ (pw ++ B)) = some B := by
  rw [show ("--pass ").data ++ (pw ++ B)
    = '-' :: '-' :: 'p' :: 'a' :: 's' :: 's' :: ' ' :: (pw ++ B) from rfl]
  unfold matchPassAt
  rw [if_pos (by rfl)]
  rw [show ('-' :: '-' :: 'p' :: 'a' :: 's' :: 's' :: ' ' :: (pw ++ B)).drop 6
    = ' ' :: (pw ++ B) from rfl]
  rw [afterWsLazy]
  rw [if_pos (by decide)]
  have hnone : afterWsLazy (pw ++ B) = none := by
    cases pw with
    | nil => exact absurd rfl hne
    | cons c pw2 =>
      have hc := hws c (List.mem_cons_self c pw2)
      rw [List.cons_append, afterWsLazy, if_neg (by simp [hc])]
  rw [hnone]
  show lazyDots (pw ++ B) = some B
  rw [lazyDots_skip pw B hws]
  cases B with
  | nil => simp [lookWsDashDash] at hB
  | cons b B2 =>
    rw [lazyDots, if_pos hB]

theorem escDollar_append (a b : List Char) :
    escDollar (a ++ b) = escDollar a ++ escDollar b := by
  simp [escDollar]

theorem escDollar_id (s : List Char) (h : ∀ c ∈ s, (c == '$') = false) :
    escDollar s = s := by
  induction s with
  | nil => rfl
  | cons c rest ih =>
    have hc := h c (List.mem_cons_self c rest)
    simp only [escDollar, List.flatMap_cons, hc, Bool.false_eq_true,
      if_false]
    show [c] ++ escDollar rest = c :: rest
    rw [ih (fun x hx => h x (List.mem_cons_of_mem c hx))]
    rfl

theorem listStartsWith_self (q b : List Char) :
    listStartsWith q (q ++ b) = true := by
  induction q with
  | nil => rfl
  | cons c q ih => simp [listStartsWith, ih]

theorem containsSub_of_append (q a b : List Char) :
    containsSub q (a ++ (q ++ b)) = true := by
  induction a with
  | nil =>
    simp only [List.nil_append]
    cases q with
    | nil =>
      cases b <;> simp [containsSub, listStartsWith]
    | cons qc qr =>
      rw [show (qc :: qr) ++ b = qc :: (qr ++ b) from rfl, containsSub]
      have hsw := listStartsWith_self (qc :: qr) b
      rw [show (qc :: qr) ++ b = qc :: (qr ++ b) from rfl] at hsw
      rw [hsw]
      simp
  | cons c a ih =>
    rw [show (c :: a) ++ (q ++ b) = c :: (a ++ (q ++ b)) from rfl,
      containsSub, ih]
    simp


/-- C1 counterexample: a compiled submission command in which the
credential argument is the last element has no following `\s--` for the
redaction pattern's lookahead, so `re.sub` finds no match and the logged
form of the command contains the secret verbatim. -/
theorem C1_counterexample :
    parse_x2b_params
        [("sessions", Value.list [.str "S1"]), ("bids_root", Value.s "/out")]
        "S1"
      = .ok (["S1", "/out"], [Value.s "/out"])
    ∧ containsSub ("hunter2").data
        (logged_wrap_script [Value.s "/out"] "/s.sif"
          (x2b_insert_creds "u" "hunter2" ["S1", "/out"])) = true := by
  exact ⟨by decide, by decide⟩

/-- C1 (amended): redaction elides the secret only when another argument
follows the credential in the compiled command.  For every nonempty
secret free of whitespace and dollar signs, with a flag argument after
the credential, the logged form of the wrapped script is one fixed string
with `[REDACTED]` in place of the value — independent of the secret — and
the executed script always retains the secret verbatim.  (When the
credential is last, the counterexample shows the secret leaks into the
log.) -/
theorem C1_redaction (pw : List Char) (hne : pw ≠ [])
    (hws : ∀ c ∈ pw, isWS c = false)
    (hdl : ∀ c ∈ pw, (c == '$') = false) :
    logged_wrap_script [Value.s "/out"] "/s.sif"
        (x2b_insert_creds "u" (String.mk pw) ["S1", "/out", "--overwrite"])
      = ("\"\"apptainer exec --no-home -B /out /s.sif xnat2bids S1 /out --user u --pass [REDACTED] --overwrite\"\"").data
    ∧ containsSub pw
        (executed_wrap_script [Value.s "/out"] "/s.sif"
          (x2b_insert_creds "u" (String.mk pw)
            ["S1", "/out", "--overwrite"])) = true := by
  have h0 : (sbatch_script [Value.s "/out"] "/s.sif"
      (x2b_insert_creds "u" (String.mk pw)
        ["S1", "/out", "--overwrite"])).data
      = ("\"\"apptainer exec --no-home -B /out /s.sif xnat2bids S1 /out --user u --pass ").data
        ++ (pw ++ (" ").data ++ ("--overwrite").data ++ ("\"\"").data) := rfl
  have h1 : (pw ++ (" ").data ++ ("--overwrite").data ++ ("\"\"").data)
      = pw ++ (" --overwrite\"\"").data := by
    simp only [List.append_assoc]
    congr 1
  have hdata : escDollar ((sbatch_script [Value.s "/out"] "/s.sif"
      (x2b_insert_creds "u" (String.mk pw)
        ["S1", "/out", "--overwrite"])).data)
      = ("\"\"apptainer exec --no-home -B /out /s.sif xnat2bids S1 /out --user u --pass ").data ++ (pw ++ (" --overwrite\"\"").data) := by
    rw [h0, h1, escDollar_append, escDollar_append]
    rw [escDollar_id ("\"\"apptainer exec --no-home -B /out /s.sif xnat2bids S1 /out --user u --pass ").data (by decide), escDollar_id pw hdl,
      escDollar_id (" --overwrite\"\"").data (by decide)]
  constructor
  · unfold logged_wrap_script
    rw [hdata]
    show redactSub ('\"' :: '\"' :: 'a' :: 'p' :: 'p' :: 't' :: 'a' :: 'i' :: 'n' :: 'e' :: 'r' :: ' ' :: 'e' :: 'x' :: 'e' :: 'c' :: ' ' :: '-' :: '-' :: 'n' :: 'o' :: '-' :: 'h' :: 'o' :: 'm' :: 'e' :: ' ' :: '-' :: 'B' :: ' ' :: '/' :: 'o' :: 'u' :: 't' :: ' ' :: '/' :: 's' :: '.' :: 's' :: 'i' :: 'f' :: ' ' :: 'x' :: 'n' :: 'a' :: 't' :: '2' :: 'b' :: 'i' :: 'd' :: 's' :: ' ' :: 'S' :: '1' :: ' ' :: '/' :: 'o' :: 'u' :: 't' :: ' ' :: '-' :: '-' :: 'u' :: 's' :: 'e' :: 'r' :: ' ' :: 'u' :: ' ' :: '-' :: '-' :: 'p' :: 'a' :: 's' :: 's' :: ' ' :: (pw ++ (" --overwrite\"\"").data)) = ("\"\"apptainer exec --no-home -B /out /s.sif xnat2bids S1 /out --user u --pass [REDACTED] --overwrite\"\"").data
    rw [redact_step1 '\"' _ (by decide),
      redact_step1 '\"' _ (by decide),
      redact_step1 'a' _ (by decide)]
    rw [redact_step1 'p' _ (by decide),
      redact_step1 'p' _ (by decide),
      redact_step1 't' _ (by decide)]
    rw [redact_step1 'a' _ (by decide),
      redact_step1 'i' _ (by decide),
      redact_step1 'n' _ (by decide)]
    rw [redact_step1 'e' _ (by decide),
      redact_step1 'r' _ (by decide),
      redact_step1 ' ' _ (by decide)]
    rw [redact_step1 'e' _ (by decide),
      redact_step1 'x' _ (by decide),
      redact_step1 'e' _ (by decide)]
    rw [redact_step1 'c' _ (by decide),
      redact_step1 ' ' _ (by decide),
      redact_step3 'n' _ (by decide)]
    rw [redact_step2 'n' _ (by decide),
      redact_step1 'n' _ (by decide),
      redact_step1 'o' _ (by decide)]
    rw [redact_step2 'h' _ (by decide),
      redact_step1 'h' _ (by decide),
      redact_step1 'o' _ (by decide)]
    rw [redact_step1 'm' _ (by decide),
      redact_step1 'e' _ (by decide),
      redact_step1 ' ' _ (by decide)]
    rw [redact_step2 'B' _ (by decide),
      redact_step1 'B' _ (by decide),
      redact_step1 ' ' _ (by decide)]
    rw [redact_step1 '/' _ (by decide),
      redact_step1 'o' _ (by decide),
      redact_step1 'u' _ (by decide)]
    rw [redact_step1 't' _ (by decide),
      redact_step1 ' ' _ (by decide),
      redact_step1 '/' _ (by decide)]
    rw [redact_step1 's' _ (by decide),
      redact_step1 '.' _ (by decide),
      redact_step1 's' _ (by decide)]
    rw [redact_step1 'i' _ (by decide),
      redact_step1 'f' _ (by decide),
      redact_step1 ' ' _ (by decide)]
    rw [redact_step1 'x' _ (by decide),
      redact_step1 'n' _ (by decide),
      redact_step1 'a' _ (by decide)]
    rw [redact_step1 't' _ (by decide),
      redact_step1 '2' _ (by decide),
      redact_step1 'b' _ (by decide)]
    rw [redact_step1 'i' _ (by decide),
      redact_step1 'd' _ (by decide),
      redact_step1 's' _ (by decide)]
    rw [redact_step1 ' ' _ (by decide),
      redact_step1 'S' _ (by decide),
      redact_step1 '1' _ (by decide)]
    rw [redact_step1 ' ' _ (by decide),
      redact_step1 '/' _ (by decide),
      redact_step1 'o' _ (by decide)]
    rw [redact_step1 'u' _ (by decide),
      redact_step1 't' _ (by decide),
      redact_step1 ' ' _ (by decide)]
    rw [redact_step3 'u' _ (by decide),
      redact_step2 'u' _ (by decide),
      redact_step1 'u' _ (by decide)]
    rw [redact_step1 's' _ (by decide),
      redact_step1 'e' _ (by decide),
      redact_step1 'r' _ (by decide)]
    rw [redact_step1 ' ' _ (by decide),
      redact_step1 'u' _ (by decide),
      redact_step1 ' ' _ (by decide)]
    have hm2 : matchPassAt ('-' :: '-' :: 'p' :: 'a' :: 's' :: 's' :: ' ' ::(pw ++ (" --overwrite\"\"").data)) = some ((" --overwrite\"\"").data) :=
      matchPass_at_cred pw (" --overwrite\"\"").data hne hws (by decide)
    rw [redactSub_cons_some _ _ _ hm2]
    rw [show redactSub ((" --overwrite\"\"").data) = (" --overwrite\"\"").data
      from by decide]
    decide
  · unfold executed_wrap_script
    rw [hdata]
    exact containsSub_of_append pw ("\"\"apptainer exec --no-home -B /out /s.sif xnat2bids S1 /out --user u --pass ").data (" --overwrite\"\"").data

/-- C1 witness: the amended theorem at the concrete secret `hunter2`. -/
theorem C1_redaction_witness :
    logged_wrap_script [Value.s "/out"] "/s.sif"
        (x2b_insert_creds "u" "hunter2" ["S1", "/out", "--overwrite"])
      = ("\"\"apptainer exec --no-home -B /out /s.sif xnat2bids S1 /out --user u --pass [REDACTED] --overwrite\"\"").data :=
  (C1_redaction ("hunter2").data (by decide) (by decide) (by decide)).1
end Oscar
